import Mathlib

/-!
Shallow embedding of the real-time location-sharing core of the
`location_tracker` repository.

Server side (the Next.js socket API route, `SocketHandler`): a registry of
connected users (`connectedUsers`, a JS `Map` keyed by socket id) together
with three event handlers — the connection handler, the `send-location`
handler, and the `disconnect` handler.  Each handler is embedded as a pure
function from a server state and its inputs to the new server state plus the
list of socket events it emits.

Client side (`MapComponent.tsx`): the two socket event handlers
`handleReceiveLocation` and `handleUserDisconnected`, which maintain the
per-peer marker table `markersRef.current` (a plain JS object keyed by the
remote socket id).  They are embedded as pure functions on a client state.

JavaScript dynamic values are modelled by `JSVal`: finite numbers are
rationals (`ℚ`), `NaN` is a separate constructor, and strings, `undefined`,
`null` and plain objects are represented structurally.  (The IEEE infinities
are omitted; in the code under study they can only flow into the range
comparisons, where, like any out-of-range number, they make validation
fail.)  Machine floating point is thus widened to exact rationals.
-/

mutual
/-- A JavaScript runtime value, as far as the handlers can observe one:
a finite number, `NaN`, a string, `undefined`, `null`, or a plain object
(association list of string keys). -/
inductive JSVal where
  | num (q : ℚ)
  | nan
  | str (s : String)
  | undef
  | jsnull
  | obj (fields : JSFields)
deriving DecidableEq
inductive JSFields where
  | nil
  | cons (key : String) (value : JSVal) (rest : JSFields)
deriving DecidableEq
end

/-- Property lookup in an object's field list (first match; `jsObj` below
already gives literals the last-write-wins semantics of JS object literals,
so the fields a lookup sees are duplicate-free). -/
def jsFieldsGet : JSFields → String → Option JSVal
  | .nil, _ => none
  | .cons k v rest, key => if k = key then some v else jsFieldsGet rest key

/-- Setting a key in an object's field list: overwrite in place if the key
exists, append otherwise (JS property-assignment semantics). -/
def jsFieldsSet : JSFields → String → JSVal → JSFields
  | .nil, k, v => .cons k v .nil
  | .cons k' v' rest, k, v =>
    if k' = k then .cons k v rest else .cons k' v' (jsFieldsSet rest k v)

/-- Build an object value from a list of key/value pairs, later entries
overwriting earlier ones, exactly as a JS object literal is built. -/
def jsObj (l : List (String × JSVal)) : JSVal :=
  .obj (l.foldl (fun fs p => jsFieldsSet fs p.1 p.2) .nil)

/-- `v[key]` for the property names used by the handlers (`latitude`,
`longitude`, `accuracy`, `timestamp`, `id`): present only on objects,
`undefined` on every primitive. -/
def jsGet (v : JSVal) (key : String) : JSVal :=
  match v with
  | .obj fs => (jsFieldsGet fs key).getD JSVal.undef
  | _ => JSVal.undef

/-- Object destructuring `const {…} = data` succeeds on every value except
`null` and `undefined`, on which it throws a `TypeError`. -/
def jsDestructurable : JSVal → Bool
  | .jsnull => false
  | .undef => false
  | _ => true

/-- `typeof v === "number"` — true exactly for finite numbers and `NaN`. -/
def jsTypeofNumber : JSVal → Bool
  | .num _ => true
  | .nan => true
  | _ => false

/-- A digit string to a natural number; `none` on a non-digit. -/
def parseDigitsAux : List Char → ℕ → Option ℕ
  | [], acc => some acc
  | c :: cs, acc =>
    if c.isDigit then parseDigitsAux cs (10 * acc + (c.toNat - 48)) else none

/-- A non-empty digit string to a natural number. -/
def parseDigits : List Char → Option ℕ
  | [] => none
  | c :: cs => parseDigitsAux (c :: cs) 0

/-- JS `ToNumber` on a string: trimmed empty string is `0`, otherwise an
optional sign followed by decimal digits with an optional fractional part;
anything else is `NaN` (`none`).  This covers plain decimal literals; the
exotic forms (hex, exponents, `Infinity`) are not produced anywhere in the
system under study. -/
def strToNumber (s : String) : Option ℚ :=
  match s.trim.toList with
  | [] => some 0
  | c :: cs =>
    let signed : ℚ × List Char :=
      match c :: cs with
      | '-' :: rest => (-1, rest)
      | '+' :: rest => (1, rest)
      | rest => (1, rest)
    let intDigits := signed.2.takeWhile (fun d => d != '.')
    match signed.2.dropWhile (fun d => d != '.') with
    | [] => (parseDigits intDigits).map (fun n => signed.1 * n)
    | _ :: fracDigits =>
      match parseDigits intDigits, parseDigits fracDigits with
      | some n, some f =>
        some (signed.1 * ((n : ℚ) + (f : ℚ) / ((10 : ℚ) ^ fracDigits.length)))
      | _, _ => none

/-- JS `ToNumber`, with `none` standing for `NaN`.  (Plain objects convert
via `"[object Object]"`, hence to `NaN`.) -/
def jsToNumber : JSVal → Option ℚ
  | .num q => some q
  | .nan => none
  | .str s => strToNumber s
  | .undef => none
  | .jsnull => some 0
  | .obj _ => none

/-- JS `v >= q` against a number literal `q` (`NaN` compares false). -/
def jsGe (v : JSVal) (q : ℚ) : Bool :=
  match jsToNumber v with
  | some x => decide (x ≥ q)
  | none => false

/-- JS `v <= q` against a number literal `q` (`NaN` compares false). -/
def jsLe (v : JSVal) (q : ℚ) : Bool :=
  match jsToNumber v with
  | some x => decide (x ≤ q)
  | none => false

/-- JS `now - v` for a number `now`: `none` is `NaN`. -/
def jsSubNum (now : ℚ) (v : JSVal) : Option ℚ :=
  (jsToNumber v).map (fun t => now - t)

/-- JS `x > e` where `x` may be `NaN` (`none`), which compares false. -/
def jsGtB : Option ℚ → ℚ → Bool
  | some q, e => decide (q > e)
  | none, _ => false

/-- JS strict equality `id === socket.id`, where `socket.id` is a string
once connected and `undefined` before. -/
def jsStrictEqId (id : JSVal) (selfId : Option String) : Bool :=
  match selfId, id with
  | some s, .str t => decide (t = s)
  | none, .undef => true
  | _, _ => false

/-- JS truthiness. -/
def jsTruthy : JSVal → Bool
  | .num q => decide (q ≠ 0)
  | .nan => false
  | .str s => decide (s ≠ "")
  | .undef => false
  | .jsnull => false
  | .obj _ => true

/-- JS property-key coercion `o[v]` (number formatting approximated by the
rational's own printing; every id the system actually indexes with is a
string, for which this is exact). -/
def jsKeyString : JSVal → String
  | .num q => toString q
  | .nan => "NaN"
  | .str s => s
  | .undef => "undefined"
  | .jsnull => "null"
  | .obj _ => "[object Object]"

/-- `Map.set` / keyed-object assignment on an association list: overwrite
the existing entry in place (JS `Map` keeps insertion order), append if the
key is new. -/
def mapSet {α : Type} : List (String × α) → String → α → List (String × α)
  | [], k, v => [(k, v)]
  | (k', v') :: rest, k, v =>
    if k' = k then (k, v) :: rest else (k', v') :: mapSet rest k v

/-- `Map.get` / keyed-object read on an association list. -/
def mapLookup {α : Type} : List (String × α) → String → Option α
  | [], _ => none
  | (k', v) :: rest, k => if k' = k then some v else mapLookup rest k

/-- `Map.delete` / `delete o[k]` on an association list (keys are unique,
so this is removal of the one matching entry). -/
def mapDelete {α : Type} : List (String × α) → String → List (String × α)
  | [], _ => []
  | (k', v) :: rest, k =>
    if k' = k then mapDelete rest k else (k', v) :: mapDelete rest k

/-- The connected sockets minus one id — the recipient set of
`socket.broadcast.emit` (everyone but the sender) and, after the transport
has dropped a closing socket, of `io.emit`. -/
def withoutId : List String → String → List String
  | [], _ => []
  | r :: rest, id => if r = id then withoutId rest id else r :: withoutId rest id

/-! ## Presence Hub (server side, `SocketHandler` in the socket API route) -/

/-- One entry of the server's `connectedUsers` map.  The connection handler
stores `{connectedAt: new Date()}`; a valid `send-location` spreads the old
record and overwrites `latitude`, `longitude`, `accuracy`,
`lastUpdate: new Date()` and `timestamp`.  Fields a given record does not
have are `none`.  Dates are modelled as rational instants. -/
structure UserRecord where
  connectedAt : Option ℚ
  latitude : Option JSVal
  longitude : Option JSVal
  accuracy : Option JSVal
  lastUpdate : Option ℚ
  timestamp : Option JSVal
deriving DecidableEq

/-- The record with no fields (spread of a missing map entry). -/
def UserRecord.empty : UserRecord :=
  { connectedAt := none, latitude := none, longitude := none,
    accuracy := none, lastUpdate := none, timestamp := none }

/-- Server state: the socket.io namespace's currently-connected sockets
(the targets `socket.broadcast.emit` / `io.emit` enumerate) and the
`connectedUsers` registry. -/
structure ServerState where
  sockets : List String
  connectedUsers : List (String × UserRecord)
deriving DecidableEq

/-- One emitted socket event, tagged with the socket it is delivered to. -/
inductive ServerEvent where
  | connectedAck (recipient : String) (id : String)
  | receiveLocation (recipient : String) (id : String)
      (latitude longitude accuracy timestamp : JSVal)
  | errorEvent (recipient : String) (message : String)
  | userDisconnected (recipient : String) (id : String)
deriving DecidableEq

/-- The `io.on("connection", …)` body: register the socket, store
`{connectedAt: new Date()}`, and acknowledge to the new socket only. -/
def onConnect (st : ServerState) (id : String) (now : ℚ) :
    ServerState × List ServerEvent :=
  ({ sockets := st.sockets ++ [id],
     connectedUsers := mapSet st.connectedUsers id
       { UserRecord.empty with connectedAt := some now } },
   [ServerEvent.connectedAck id id])

/-- The range/type check of the `send-location` handler, verbatim:
`typeof latitude === "number" && typeof longitude === "number" &&
latitude >= -90 && latitude <= 90 && longitude >= -180 && longitude <= 180`. -/
def validLocation (latitude longitude : JSVal) : Bool :=
  jsTypeofNumber latitude && jsTypeofNumber longitude &&
    jsGe latitude (-90) && jsLe latitude 90 &&
    jsGe longitude (-180) && jsLe longitude 180

/-- The `socket.on("send-location", …)` handler.  Destructuring a `null` or
`undefined` payload throws; the surrounding `try`/`catch` turns that into a
single `error` event to the sender.  A payload failing `validLocation` gets
a single `error` event to the sender and no state change.  A valid payload
updates the sender's registry record (spread of the old record) and
broadcasts `receive-location` to every connected socket except the sender. -/
def onSendLocation (st : ServerState) (sender : String) (now : ℚ)
    (data : JSVal) : ServerState × List ServerEvent :=
  if jsDestructurable data then
    let latitude := jsGet data "latitude"
    let longitude := jsGet data "longitude"
    let accuracy := jsGet data "accuracy"
    let timestamp := jsGet data "timestamp"
    if validLocation latitude longitude then
      let old := (mapLookup st.connectedUsers sender).getD UserRecord.empty
      let updated : UserRecord :=
        { connectedAt := old.connectedAt
          latitude := some latitude
          longitude := some longitude
          accuracy := some accuracy
          lastUpdate := some now
          timestamp := some timestamp }
      ({ st with connectedUsers := mapSet st.connectedUsers sender updated },
       (withoutId st.sockets sender).map
         (fun r => ServerEvent.receiveLocation r sender latitude longitude
           accuracy timestamp))
    else
      (st, [ServerEvent.errorEvent sender "Invalid location data"])
  else
    (st, [ServerEvent.errorEvent sender "Error processing location data"])

/-- The `socket.on("disconnect", …)` handler: `connectedUsers.delete` and
`io.emit("user-disconnected", socket.id)`.  By the time the event fires the
transport has already dropped the closing socket from the namespace, so the
model removes `id` from both components and the broadcast reaches exactly
the remaining sockets. -/
def onDisconnect (st : ServerState) (id : String) :
    ServerState × List ServerEvent :=
  let st' : ServerState :=
    { sockets := withoutId st.sockets id,
      connectedUsers := mapDelete st.connectedUsers id }
  (st', st'.sockets.map (fun r => ServerEvent.userDisconnected r id))

/-! ## Peer Reconciler (client side, `MapComponent.tsx`) -/

/-- The Leaflet accuracy circle attached to a peer marker: centre and
radius as they were passed to `L.circle`. -/
structure AccuracyCircle where
  clat : JSVal
  clon : JSVal
  radius : JSVal
deriving DecidableEq

/-- One entry of `markersRef.current`: the marker's current coordinates and
its optional `accuracyCircle` property. -/
structure PeerMarker where
  mlat : JSVal
  mlon : JSVal
  accuracyCircle : Option AccuracyCircle
deriving DecidableEq

/-- Client-side reconciler state: the peer marker table and whether
`mapInstanceRef.current` is non-null (both handlers are only registered
while the map instance exists). -/
structure ClientState where
  markers : List (String × PeerMarker)
  mapPresent : Bool
deriving DecidableEq

/-- The `receive-location` handler.  In source order: destructure the
payload (throws, uncaught, on `null`/`undefined` — modelled as `none`);
return if `id === socket.id`; return if `Date.now() - timestamp` exceeds
the expiry window; then update the existing marker's coordinates in place
(its `accuracyCircle` property survives — only the circle's map layer is
removed) or create a new marker; finally, if `accuracy` is truthy and the
map instance exists, attach a fresh accuracy circle. -/
def handleReceiveLocation (st : ClientState) (selfId : Option String)
    (now expiry : ℚ) (data : JSVal) : Option ClientState :=
  if jsDestructurable data then
    let id := jsGet data "id"
    let latitude := jsGet data "latitude"
    let longitude := jsGet data "longitude"
    let accuracy := jsGet data "accuracy"
    let timestamp := jsGet data "timestamp"
    if jsStrictEqId id selfId then some st
    else if jsGtB (jsSubNum now timestamp) expiry then some st
    else
      let key := jsKeyString id
      let markers1 :=
        match mapLookup st.markers key with
        | some m => mapSet st.markers key { m with mlat := latitude, mlon := longitude }
        | none => mapSet st.markers key
            { mlat := latitude, mlon := longitude, accuracyCircle := none }
      let markers2 :=
        if jsTruthy accuracy && st.mapPresent then
          match mapLookup markers1 key with
          | some m => mapSet markers1 key
              { m with accuracyCircle := some ⟨latitude, longitude, accuracy⟩ }
          | none => markers1
        else markers1
      some { st with markers := markers2 }
  else none

/-- The `user-disconnected` handler: if a marker for `id` exists and the
map instance does, remove its accuracy circle and the marker from the map
and delete the table entry; otherwise do nothing. -/
def handleUserDisconnected (st : ClientState) (id : String) : ClientState :=
  if (mapLookup st.markers id).isSome && st.mapPresent then
    { st with markers := mapDelete st.markers id }
  else st

/-! ## Association-list and filter lemmas -/

theorem mapLookup_mapSet_self {α : Type} (m : List (String × α)) (k : String) (v : α) :
    mapLookup (mapSet m k v) k = some v := by
  induction m with
  | nil => simp [mapSet, mapLookup]
  | cons p rest ih =>
    obtain ⟨k', v'⟩ := p
    by_cases h : k' = k
    · simp [mapSet, h, mapLookup]
    · simp [mapSet, h, mapLookup, ih]

theorem mapLookup_mapSet_ne {α : Type} (m : List (String × α)) (k k' : String)
    (v : α) (h : k ≠ k') :
    mapLookup (mapSet m k v) k' = mapLookup m k' := by
  induction m with
  | nil => simp [mapSet, mapLookup, h]
  | cons p rest ih =>
    obtain ⟨k₀, v₀⟩ := p
    by_cases h₀ : k₀ = k
    · subst h₀
      simp [mapSet, mapLookup, h, ih]
    · simp [mapSet, h₀, mapLookup, ih]

theorem mapLookup_mapDelete_self {α : Type} (m : List (String × α)) (k : String) :
    mapLookup (mapDelete m k) k = none := by
  induction m with
  | nil => simp [mapDelete, mapLookup]
  | cons p rest ih =>
    obtain ⟨k₀, v₀⟩ := p
    by_cases h₀ : k₀ = k
    · simp [mapDelete, h₀, ih]
    · simp [mapDelete, h₀, mapLookup, ih]

theorem mapLookup_mapDelete_ne {α : Type} (m : List (String × α)) (k k' : String)
    (h : k' ≠ k) :
    mapLookup (mapDelete m k) k' = mapLookup m k' := by
  induction m with
  | nil => simp [mapDelete]
  | cons p rest ih =>
    obtain ⟨k₀, v₀⟩ := p
    by_cases h₀ : k₀ = k
    · subst h₀
      simp [mapDelete, mapLookup, Ne.symm h, ih]
    · simp [mapDelete, h₀, mapLookup, ih]

theorem mapDelete_eq_self_of_mapLookup_none {α : Type} (m : List (String × α))
    (k : String) (h : mapLookup m k = none) :
    mapDelete m k = m := by
  induction m with
  | nil => rfl
  | cons p rest ih =>
    obtain ⟨k₀, v₀⟩ := p
    by_cases h₀ : k₀ = k
    · subst h₀
      simp [mapLookup] at h
    · rw [mapLookup, if_neg h₀] at h
      simp [mapDelete, h₀, ih h]

theorem mapDelete_mapDelete {α : Type} (m : List (String × α)) (k : String) :
    mapDelete (mapDelete m k) k = mapDelete m k := by
  induction m with
  | nil => rfl
  | cons p rest ih =>
    obtain ⟨k₀, v₀⟩ := p
    by_cases h₀ : k₀ = k
    · simp [mapDelete, h₀, ih]
    · simp [mapDelete, h₀, ih]

theorem withoutId_withoutId (l : List String) (a : String) :
    withoutId (withoutId l a) a = withoutId l a := by
  induction l with
  | nil => rfl
  | cons b t ih =>
    by_cases h : b = a
    · simp [withoutId, h, ih]
    · simp [withoutId, h, ih]

theorem mem_withoutId (l : List String) (a r : String) (h : r ∈ withoutId l a) :
    r ∈ l ∧ r ≠ a := by
  induction l with
  | nil => simp [withoutId] at h
  | cons b t ih =>
    by_cases hb : b = a
    · rw [withoutId, if_pos hb] at h
      exact ⟨List.mem_cons_of_mem b (ih h).1, (ih h).2⟩
    · rw [withoutId, if_neg hb] at h
      rcases List.mem_cons.mp h with h' | h'
      · exact ⟨h' ▸ List.mem_cons_self b t, h' ▸ hb⟩
      · exact ⟨List.mem_cons_of_mem b (ih h').1, (ih h').2⟩

theorem withoutId_eq_self_of_not_mem (l : List String) (a : String)
    (h : a ∉ l) :
    withoutId l a = l := by
  induction l with
  | nil => rfl
  | cons b t ih =>
    have hb : b ≠ a := fun hba => h (by simp [hba])
    have ht : a ∉ t := fun hat => h (List.mem_cons_of_mem b hat)
    rw [withoutId, if_neg hb, ih ht]

theorem length_withoutId_of_nodup (l : List String) (a : String)
    (hnd : l.Nodup) (hmem : a ∈ l) :
    (withoutId l a).length = l.length - 1 := by
  induction l with
  | nil => simp at hmem
  | cons b t ih =>
    rw [List.nodup_cons] at hnd
    by_cases h : b = a
    · subst h
      rw [withoutId, if_pos rfl, withoutId_eq_self_of_not_mem t b hnd.1]
      simp
    · have hmem' : a ∈ t := by
        rcases List.mem_cons.mp hmem with h' | h'
        · exact absurd h'.symm h
        · exact h'
      have hlen : 1 ≤ t.length := List.length_pos.mpr (List.ne_nil_of_mem hmem')
      rw [withoutId, if_neg h, List.length_cons, ih hnd.2 hmem', List.length_cons]
      omega

/-! ## Claim theorems -/

/-- C1: a position report with numeric latitude in `[-90, 90]` and numeric
longitude in `[-180, 180]` makes the `send-location` handler update the
sender's registry record with the new position and broadcast a
`receive-location` event `{id, latitude, longitude, accuracy, timestamp}`
to every other currently-connected client — never back to the sender, so to
exactly `connected-count - 1` recipients. -/
theorem sendLocation_valid_updates_and_broadcasts
    (st : ServerState) (sender : String) (now : ℚ) (data : JSVal) (la lo : ℚ)
    (hdata : jsDestructurable data = true)
    (hla : jsGet data "latitude" = JSVal.num la)
    (hlo : jsGet data "longitude" = JSVal.num lo)
    (hla1 : -90 ≤ la) (hla2 : la ≤ 90) (hlo1 : -180 ≤ lo) (hlo2 : lo ≤ 180)
    (hnd : st.sockets.Nodup) (hmem : sender ∈ st.sockets) :
    (onSendLocation st sender now data).1.connectedUsers =
      mapSet st.connectedUsers sender
        { connectedAt :=
            ((mapLookup st.connectedUsers sender).getD UserRecord.empty).connectedAt,
          latitude := some (JSVal.num la), longitude := some (JSVal.num lo),
          accuracy := some (jsGet data "accuracy"), lastUpdate := some now,
          timestamp := some (jsGet data "timestamp") } ∧
    (onSendLocation st sender now data).2 =
      (withoutId st.sockets sender).map
        (fun r => ServerEvent.receiveLocation r sender (JSVal.num la)
          (JSVal.num lo) (jsGet data "accuracy") (jsGet data "timestamp")) ∧
    (∀ r i la' lo' acc' ts',
        ServerEvent.receiveLocation r i la' lo' acc' ts' ∈
          (onSendLocation st sender now data).2 → r ≠ sender) ∧
    (onSendLocation st sender now data).2.length = st.sockets.length - 1 := by
  have hval : validLocation (JSVal.num la) (JSVal.num lo) = true := by
    simp [validLocation, jsTypeofNumber, jsGe, jsLe, jsToNumber,
      hla1, hla2, hlo1, hlo2]
  have hev : (onSendLocation st sender now data).2 =
      (withoutId st.sockets sender).map
        (fun r => ServerEvent.receiveLocation r sender (JSVal.num la)
          (JSVal.num lo) (jsGet data "accuracy") (jsGet data "timestamp")) := by
    simp [onSendLocation, hdata, hval, hla, hlo]
  refine ⟨?_, hev, ?_, ?_⟩
  · simp [onSendLocation, hdata, hval, hla, hlo]
  · intro r i la' lo' acc' ts' hr
    rw [hev] at hr
    simp only [List.mem_map] at hr
    obtain ⟨r', hr', heq⟩ := hr
    cases heq
    exact (mem_withoutId st.sockets sender _ hr').2
  · rw [hev, List.length_map, length_withoutId_of_nodup st.sockets sender hnd hmem]

def wRec : UserRecord := { UserRecord.empty with connectedAt := some 1 }

def wState : ServerState :=
  { sockets := ["a", "b"], connectedUsers := [("a", wRec), ("b", wRec)] }

def wValidData : JSVal :=
  jsObj [("latitude", JSVal.num 10), ("longitude", JSVal.num 20),
         ("accuracy", JSVal.num 5), ("timestamp", JSVal.num 100)]

theorem sendLocation_valid_updates_and_broadcasts_witness :
    (onSendLocation wState "a" 2 wValidData).2.length = wState.sockets.length - 1 :=
  (sendLocation_valid_updates_and_broadcasts wState "a" 2 wValidData 10 20
    (by decide) (by decide) (by decide) (by decide) (by decide) (by decide)
    (by decide) (by decide) (by decide)).2.2.2

/-- C2: a position report whose latitude or longitude is non-numeric or out
of range makes the `send-location` handler emit exactly one `error` event,
to the sender only, with no broadcast; the registry (in particular the
sender's stored position) is exactly what it was before the call. -/
theorem sendLocation_invalid_rejected
    (st : ServerState) (sender : String) (now : ℚ) (data : JSVal)
    (hdata : jsDestructurable data = true)
    (hinv : validLocation (jsGet data "latitude") (jsGet data "longitude") = false) :
    onSendLocation st sender now data =
      (st, [ServerEvent.errorEvent sender "Invalid location data"]) := by
  simp [onSendLocation, hdata, hinv]

def wInvalidData : JSVal :=
  jsObj [("latitude", JSVal.num 91), ("longitude", JSVal.num 20),
         ("timestamp", JSVal.num 100)]

theorem sendLocation_invalid_rejected_witness :
    onSendLocation wState "a" 2 wInvalidData =
      (wState, [ServerEvent.errorEvent "a" "Invalid location data"]) :=
  sendLocation_invalid_rejected wState "a" 2 wInvalidData (by decide) (by decide)

def wNegAccData : JSVal :=
  jsObj [("latitude", JSVal.num 0), ("longitude", JSVal.num 0),
         ("accuracy", JSVal.num (-5)), ("timestamp", JSVal.num 100)]

/-- C3 counterexample: a report with in-range latitude/longitude but a
negative `accuracy` is NOT rejected — the handler stores it in the registry
and broadcasts it, because the validation never looks at `accuracy`. -/
theorem sendLocation_negative_accuracy_accepted_cex :
    (onSendLocation wState "a" 2 wNegAccData).2 =
      [ServerEvent.receiveLocation "b" "a" (JSVal.num 0) (JSVal.num 0)
        (JSVal.num (-5)) (JSVal.num 100)] ∧
    mapLookup (onSendLocation wState "a" 2 wNegAccData).1.connectedUsers "a" =
      some { connectedAt := some 1, latitude := some (JSVal.num 0),
             longitude := some (JSVal.num 0), accuracy := some (JSVal.num (-5)),
             lastUpdate := some 2, timestamp := some (JSVal.num 100) } := by
  decide

/-- C3 (amended): the `send-location` validation checks only latitude and
longitude; a report whose `accuracy` is negative or non-numeric is still
accepted whenever latitude/longitude pass — the raw `accuracy` value is
stored in the sender's record and broadcast unchanged to every other
connected client. -/
theorem sendLocation_accuracy_not_validated
    (st : ServerState) (sender : String) (now : ℚ) (data : JSVal)
    (la lo : ℚ) (acc : JSVal)
    (hdata : jsDestructurable data = true)
    (hla : jsGet data "latitude" = JSVal.num la)
    (hlo : jsGet data "longitude" = JSVal.num lo)
    (hla1 : -90 ≤ la) (hla2 : la ≤ 90) (hlo1 : -180 ≤ lo) (hlo2 : lo ≤ 180)
    (hacc : jsGet data "accuracy" = acc)
    (hbad : jsTypeofNumber acc = false ∨ ∃ a : ℚ, acc = JSVal.num a ∧ a < 0) :
    mapLookup (onSendLocation st sender now data).1.connectedUsers sender =
      some { connectedAt :=
               ((mapLookup st.connectedUsers sender).getD UserRecord.empty).connectedAt,
             latitude := some (JSVal.num la), longitude := some (JSVal.num lo),
             accuracy := some acc, lastUpdate := some now,
             timestamp := some (jsGet data "timestamp") } ∧
    (onSendLocation st sender now data).2 =
      (withoutId st.sockets sender).map
        (fun r => ServerEvent.receiveLocation r sender (JSVal.num la)
          (JSVal.num lo) acc (jsGet data "timestamp")) := by
  have hval : validLocation (JSVal.num la) (JSVal.num lo) = true := by
    simp [validLocation, jsTypeofNumber, jsGe, jsLe, jsToNumber,
      hla1, hla2, hlo1, hlo2]
  constructor
  · simp [onSendLocation, hdata, hla, hlo, hacc, hval, mapLookup_mapSet_self]
  · simp [onSendLocation, hdata, hla, hlo, hacc, hval]

theorem sendLocation_accuracy_not_validated_witness :
    (onSendLocation wState "a" 2 wNegAccData).2 =
      (withoutId wState.sockets "a").map
        (fun r => ServerEvent.receiveLocation r "a" (JSVal.num 0) (JSVal.num 0)
          (JSVal.num (-5)) (jsGet wNegAccData "timestamp")) :=
  (sendLocation_accuracy_not_validated wState "a" 2 wNegAccData 0 0
    (JSVal.num (-5)) (by decide) (by decide) (by decide) (by decide) (by decide)
    (by decide) (by decide) (by decide)
    (Or.inr ⟨-5, by decide, by decide⟩)).2

/-- C4 counterexample: running the disconnect handler a second time for the
same id leaves the registry unchanged but is NOT broadcast-free — the
handler re-emits `user-disconnected` to every still-connected client
(here: to `"b"`), because `io.emit` is unconditional. -/
theorem disconnect_second_run_broadcasts_cex :
    (onDisconnect (onDisconnect wState "a").1 "a").1 = (onDisconnect wState "a").1 ∧
    (onDisconnect (onDisconnect wState "a").1 "a").2 =
      [ServerEvent.userDisconnected "b" "a"] := by
  decide

/-- C4 (amended): the disconnect handler is idempotent on the registry —
a second run for the same id changes neither the socket set nor
`connectedUsers` — but it is not a no-op on events: the second run still
emits `user-disconnected` to every currently-connected client. -/
theorem disconnect_second_run_registry_unchanged (st : ServerState) (id : String) :
    (onDisconnect (onDisconnect st id).1 id).1 = (onDisconnect st id).1 ∧
    (onDisconnect (onDisconnect st id).1 id).2 =
      (onDisconnect st id).1.sockets.map
        (fun r => ServerEvent.userDisconnected r id) := by
  simp [onDisconnect, withoutId_withoutId, mapDelete_mapDelete]

/-- C9 (implicit): a payload whose destructuring throws (`null` or
`undefined`) is caught by the handler's `try`/`catch`, which emits exactly
one `error` event to the sender and nothing else; the registry is left
unchanged, so no inbound payload propagates an exception. -/
theorem sendLocation_throw_caught
    (st : ServerState) (sender : String) (now : ℚ) (data : JSVal)
    (hthrow : jsDestructurable data = false) :
    onSendLocation st sender now data =
      (st, [ServerEvent.errorEvent sender "Error processing location data"]) := by
  simp [onSendLocation, hthrow]

theorem sendLocation_throw_caught_witness :
    onSendLocation wState "a" 2 JSVal.jsnull =
      (wState, [ServerEvent.errorEvent "a" "Error processing location data"]) :=
  sendLocation_throw_caught wState "a" 2 JSVal.jsnull (by decide)

def wNaNData : JSVal :=
  jsObj [("latitude", JSVal.nan), ("longitude", JSVal.num 20),
         ("timestamp", JSVal.num 100)]

/-- C10 (implicit): a report whose latitude or longitude is `NaN` passes the
`typeof`-number check but fails every range comparison, so the Hub rejects
it: no store, no broadcast, one `error` event to the sender. -/
theorem sendLocation_nan_rejected
    (st : ServerState) (sender : String) (now : ℚ) (data : JSVal)
    (hdata : jsDestructurable data = true)
    (hnan : jsGet data "latitude" = JSVal.nan ∨ jsGet data "longitude" = JSVal.nan) :
    jsTypeofNumber JSVal.nan = true ∧
    onSendLocation st sender now data =
      (st, [ServerEvent.errorEvent sender "Invalid location data"]) := by
  refine ⟨rfl, ?_⟩
  have hinv : validLocation (jsGet data "latitude") (jsGet data "longitude") = false := by
    rcases hnan with h | h <;>
      rw [h] <;>
      simp [validLocation, jsTypeofNumber, jsGe, jsLe, jsToNumber]
  simp [onSendLocation, hdata, hinv]

theorem sendLocation_nan_rejected_witness :
    jsTypeofNumber JSVal.nan = true ∧
    onSendLocation wState "a" 2 wNaNData =
      (wState, [ServerEvent.errorEvent "a" "Invalid location data"]) :=
  sendLocation_nan_rejected wState "a" 2 wNaNData (by decide) (Or.inl (by decide))

def wClient : ClientState := { markers := [], mapPresent := true }

/-- C5: a position event whose (numeric) timestamp is older than the
staleness window — local receipt time minus the event timestamp strictly
exceeds the window — is dropped without error: the reconciler state is
returned unchanged, so no PeerView/marker is created or updated. -/
theorem receiveLocation_stale_dropped
    (st : ClientState) (selfId : Option String) (now expiry : ℚ)
    (data : JSVal) (t : ℚ)
    (hdata : jsDestructurable data = true)
    (hts : jsGet data "timestamp" = JSVal.num t)
    (hstale : now - t > expiry) :
    handleReceiveLocation st selfId now expiry data = some st := by
  by_cases hself : jsStrictEqId (jsGet data "id") selfId = true
  · simp [handleReceiveLocation, hdata, hself]
  · simp only [Bool.not_eq_true] at hself
    simp [handleReceiveLocation, hdata, hself, hts, jsSubNum, jsToNumber,
      jsGtB, hstale]

def wStaleData : JSVal :=
  jsObj [("id", JSVal.str "p"), ("latitude", JSVal.num 1),
         ("longitude", JSVal.num 2), ("timestamp", JSVal.num 100)]

theorem receiveLocation_stale_dropped_witness :
    handleReceiveLocation wClient (some "me") 1000000 30000 wStaleData =
      some wClient :=
  receiveLocation_stale_dropped wClient (some "me") 1000000 30000 wStaleData 100
    (by decide) (by decide) (by norm_num)

/-- C6: a position event whose `id` strictly equals the receiving client's
own connection id is ignored — the reconciler state is returned unchanged,
so no PeerView/marker is ever created or updated for it. -/
theorem receiveLocation_self_echo_ignored
    (st : ClientState) (selfId : Option String) (now expiry : ℚ)
    (data : JSVal) (s : String)
    (hdata : jsDestructurable data = true)
    (hid : jsGet data "id" = JSVal.str s)
    (hself : selfId = some s) :
    handleReceiveLocation st selfId now expiry data = some st := by
  subst hself
  simp [handleReceiveLocation, hdata, hid, jsStrictEqId]

def wSelfData : JSVal :=
  jsObj [("id", JSVal.str "me"), ("latitude", JSVal.num 1),
         ("longitude", JSVal.num 2), ("timestamp", JSVal.num 100)]

theorem receiveLocation_self_echo_ignored_witness :
    handleReceiveLocation wClient (some "me") 1000000 30000 wSelfData =
      some wClient :=
  receiveLocation_self_echo_ignored wClient (some "me") 1000000 30000 wSelfData
    "me" (by decide) (by decide) rfl

def wMalformedData : JSVal :=
  jsObj [("id", JSVal.str "p"), ("timestamp", JSVal.num 1000000)]

/-- C7 counterexample: a malformed position event — here with `latitude`
and `longitude` missing entirely — is NOT dropped by the reconciler: since
the only checks are self-echo and staleness, the event creates a PeerView
for `"p"` whose coordinates are the raw `undefined` values. -/
theorem receiveLocation_malformed_stored_cex :
    handleReceiveLocation wClient (some "me") 1000000 30000 wMalformedData =
      some { markers := [("p", { mlat := JSVal.undef, mlon := JSVal.undef,
                                 accuracyCircle := none })],
             mapPresent := true } ∧
    handleReceiveLocation wClient (some "me") 1000000 30000 wMalformedData ≠
      some wClient := by
  refine ⟨?_, ?_⟩ <;>
    simp [handleReceiveLocation, wClient, wMalformedData, jsObj, jsFieldsSet,
      jsDestructurable, jsGet, jsFieldsGet, jsStrictEqId, jsSubNum, jsToNumber,
      jsGtB, jsTruthy, jsKeyString, mapSet, mapLookup]

/-- C8: when the map instance is present, a `user-disconnected` event for
`d` removes the PeerView/marker for `d` (and with it its accuracy circle,
which lives inside the marker entry) while leaving every other entry
untouched; if no marker exists for `d` the event is a no-op. -/
theorem userDisconnected_removes_marker
    (st : ClientState) (d : String)
    (hmap : st.mapPresent = true) :
    mapLookup (handleUserDisconnected st d).markers d = none ∧
    (∀ k, k ≠ d →
      mapLookup (handleUserDisconnected st d).markers k = mapLookup st.markers k) ∧
    (mapLookup st.markers d = none → handleUserDisconnected st d = st) := by
  by_cases hex : (mapLookup st.markers d).isSome
  · refine ⟨?_, ?_, ?_⟩
    · simp [handleUserDisconnected, hex, hmap, mapLookup_mapDelete_self]
    · intro k hk
      simp [handleUserDisconnected, hex, hmap, mapLookup_mapDelete_ne _ _ _ hk]
    · intro hnone
      rw [hnone] at hex
      simp at hex
  · have hnone : mapLookup st.markers d = none := by
      cases h : mapLookup st.markers d with
      | none => rfl
      | some m => rw [h] at hex; simp at hex
    refine ⟨?_, ?_, ?_⟩
    · simp [handleUserDisconnected, hnone]
    · intro k hk
      simp [handleUserDisconnected, hnone]
    · intro h
      simp [handleUserDisconnected, hnone]

def wClient2 : ClientState :=
  { markers := [("p", { mlat := JSVal.num 1, mlon := JSVal.num 2,
                        accuracyCircle := none }),
                ("q", { mlat := JSVal.num 3, mlon := JSVal.num 4,
                        accuracyCircle := none })],
    mapPresent := true }

theorem userDisconnected_removes_marker_witness :
    mapLookup (handleUserDisconnected wClient2 "p").markers "p" = none :=
  (userDisconnected_removes_marker wClient2 "p" (by decide)).1

/-- C7 (amended): the reconciler performs no field validation — beyond the
self-echo and staleness checks there is no check at all.  Any event whose
`id` is a foreign string and whose timestamp survives the staleness
comparison (which a missing or non-numeric timestamp does vacuously, since
`NaN > window` is false) creates or updates the PeerView for that id,
storing the raw latitude/longitude values even when they are missing or
non-numeric. -/
theorem receiveLocation_no_field_validation
    (st : ClientState) (selfId : Option String) (now expiry : ℚ)
    (data : JSVal) (s : String)
    (hdata : jsDestructurable data = true)
    (hid : jsGet data "id" = JSVal.str s)
    (hnotself : jsStrictEqId (JSVal.str s) selfId = false)
    (hfresh : jsGtB (jsSubNum now (jsGet data "timestamp")) expiry = false) :
    ∃ st', handleReceiveLocation st selfId now expiry data = some st' ∧
      ∃ m, mapLookup st'.markers s = some m ∧
        m.mlat = jsGet data "latitude" ∧ m.mlon = jsGet data "longitude" := by
  simp only [handleReceiveLocation, hdata, hid, hnotself, hfresh, jsKeyString,
    if_true, if_false, Bool.false_eq_true, ite_false, ite_true]
  refine ⟨_, rfl, ?_⟩
  cases hm : mapLookup st.markers s with
  | none =>
    by_cases hacc : (jsTruthy (jsGet data "accuracy") && st.mapPresent) = true
    · simp only [hm, hacc, if_true, mapLookup_mapSet_self]
      exact ⟨_, rfl, rfl, rfl⟩
    · simp only [Bool.not_eq_true] at hacc
      simp only [hm, hacc, Bool.false_eq_true, if_false]
      exact ⟨_, mapLookup_mapSet_self _ _ _, rfl, rfl⟩
  | some m0 =>
    by_cases hacc : (jsTruthy (jsGet data "accuracy") && st.mapPresent) = true
    · simp only [hm, hacc, if_true, mapLookup_mapSet_self]
      exact ⟨_, rfl, rfl, rfl⟩
    · simp only [Bool.not_eq_true] at hacc
      simp only [hm, hacc, Bool.false_eq_true, if_false]
      exact ⟨_, mapLookup_mapSet_self _ _ _, rfl, rfl⟩

theorem receiveLocation_no_field_validation_witness :
    ∃ st', handleReceiveLocation wClient (some "me") 1000000 30000
        wMalformedData = some st' ∧
      ∃ m, mapLookup st'.markers "p" = some m ∧
        m.mlat = jsGet wMalformedData "latitude" ∧
        m.mlon = jsGet wMalformedData "longitude" :=
  receiveLocation_no_field_validation wClient (some "me") 1000000 30000
    wMalformedData "p" (by decide) (by decide) (by decide)
    (by simp [wMalformedData, jsObj, jsFieldsSet, jsGet, jsFieldsGet,
          jsGtB, jsSubNum, jsToNumber])
